import Mathlib

/-!
Verification development for the `repo_data.py` GitHub ETL script.

The script is shallowly embedded: JSON values become an inductive `Json` type,
the HTTP layer becomes an oracle of scripted fetch results, and the SQLite
store becomes an association list of tables keyed by table name.  The three
functions of the script — `extract`, `transform_load` and `main` — are
translated into pure Lean functions over those types, and the claims about the
spec are settled as theorems about these functions.
-/

mutual
/-- JSON values, as produced by `json.loads`.  Arrays and objects use the
mutually inductive list types `JList` / `JObj` so that decidable equality can
be derived.  Numbers are modelled as integers (every numeric field the script
touches is an integer). -/
inductive Json where
  | null
  | bool (b : Bool)
  | num (n : Int)
  | str (s : String)
  | arr (xs : JList)
  | obj (kvs : JObj)
deriving Repr, DecidableEq

inductive JList where
  | nil
  | cons (hd : Json) (tl : JList)
deriving Repr, DecidableEq

inductive JObj where
  | nil
  | cons (k : String) (v : Json) (tl : JObj)
deriving Repr, DecidableEq
end

/-- Convert a `JList` to an ordinary Lean list of `Json` values. -/
def JList.toList : JList → List Json
  | .nil => []
  | .cons x xs => x :: xs.toList

/-- Build a `JList` from an ordinary Lean list. -/
def JList.ofList : List Json → JList
  | [] => .nil
  | x :: xs => .cons x (JList.ofList xs)

/-- Convert a `JObj` to an association list. -/
def JObj.toList : JObj → List (String × Json)
  | .nil => []
  | .cons k v kvs => (k, v) :: kvs.toList

/-- Build a `JObj` from an association list. -/
def JObj.ofList : List (String × Json) → JObj
  | [] => .nil
  | (k, v) :: kvs => .cons k v (JObj.ofList kvs)

/-- First value bound to key `k`, as in a python dict lookup (keys of a dict
are unique, so first-match lookup is exact). -/
def JObj.find : JObj → String → Option Json
  | .nil, _ => none
  | .cons k v kvs, k' => if k = k' then some v else kvs.find k'

/-- Convenience constructor for array literals. -/
def jarr (l : List Json) : Json := .arr (JList.ofList l)

/-- Convenience constructor for object literals. -/
def jobj (l : List (String × Json)) : Json := .obj (JObj.ofList l)

/-- The python exceptions the embedded code can raise. -/
inductive PyErr where
  | keyError
  | typeError
  | requestError
deriving Repr, DecidableEq

deriving instance DecidableEq for Except

/-- `item[k]`: a `KeyError` when the key is absent from a dict, a `TypeError`
when subscripting a non-dict with a string key. -/
def Json.get : Json → String → Except PyErr Json
  | .obj kvs, k =>
    match kvs.find k with
    | some v => .ok v
    | none => .error .keyError
  | _, _ => .error .typeError

/-- Python truthiness of a JSON value. -/
def Json.truthy : Json → Bool
  | .null => false
  | .bool b => b
  | .num n => n != 0
  | .str s => s ≠ ""
  | .arr .nil => false
  | .arr _ => true
  | .obj .nil => false
  | .obj _ => true

/-- `for item in x`: lists iterate their elements, strings their characters,
dicts their keys; `None`, booleans and numbers are not iterable. -/
def Json.iterElems : Json → Except PyErr (List Json)
  | .arr xs => .ok xs.toList
  | .str s => .ok (s.toList.map (fun c => Json.str (String.singleton c)))
  | .obj kvs => .ok (kvs.toList.map (fun kv => Json.str kv.1))
  | _ => .error .typeError

/-- Whether a JSON value is an array. -/
def Json.isArr : Json → Bool
  | .arr _ => true
  | _ => false

/-- The element list of an array (empty for non-arrays). -/
def Json.elems : Json → List Json
  | .arr xs => xs.toList
  | _ => []

mutual
/-- `json.dumps`, modelled up to string escaping (the escaping of special
characters inside string literals is elided; it does not affect any property
proved here). -/
def Json.dumps : Json → String
  | .null => "null"
  | .bool b => if b then "true" else "false"
  | .num n => toString n
  | .str s => "\x22" ++ s ++ "\x22"
  | .arr xs => "[" ++ JList.dumps xs ++ "]"
  | .obj kvs => "\x7b" ++ JObj.dumps kvs ++ "\x7d"

def JList.dumps : JList → String
  | .nil => ""
  | .cons x .nil => x.dumps
  | .cons x xs => x.dumps ++ ", " ++ JList.dumps xs

def JObj.dumps : JObj → String
  | .nil => ""
  | .cons k v .nil => "\x22" ++ k ++ "\x22: " ++ v.dumps
  | .cons k v kvs => "\x22" ++ k ++ "\x22: " ++ v.dumps ++ ", " ++ JObj.dumps kvs
end

-- Quick sanity checks of the JSON layer.
example : (jobj [("a", .num 1)]).get "a" = .ok (.num 1) := by decide
example : (jobj [("a", .num 1)]).get "b" = .error .keyError := by decide
example : Json.null.get "a" = .error .typeError := by decide
example : Json.dumps (jarr []) = "[]" := rfl
example : Json.dumps Json.null = "null" := rfl

/-! ## The extract step (`get_rate_limit`, `extract`) -/

/-- `RATE_LIMIT = 5000`, the authorized hourly request budget. -/
def RATE_LIMIT : Nat := 5000

/-- `get_rate_limit`: queries the `rate_limit` endpoint and parses
`resources.core.remaining`.  The network response is modelled by its parsed
`remaining` value, which the function returns; the informational print of
`RATE_LIMIT - remaining` is I/O and has no effect on the result. -/
def get_rate_limit (apiRemaining : Nat) : Nat := apiRemaining

/-- One scripted HTTP page response: the parsed JSON body of `res.json()` and
whether the `Link` header carries a `next` relation (`'next' in res.links`). -/
structure Page where
  body : Json
  hasNext : Bool
deriving Repr, DecidableEq

/-- Outcome of one `requests.get` + `res.json()` round trip: either a page, or
an exception (network error or malformed body). -/
inductive FetchResult where
  | ok (p : Page)
  | exn
deriving Repr, DecidableEq

/-- `json_data.extend(res.json())`: appends the elements of the new body to the
accumulated list; raises when the accumulator is not a list (no `extend`
attribute) or the new body is not iterable. -/
def extendJson : Json → Json → Except PyErr Json
  | .arr xs, b => do
    let es ← b.iterElems
    pure (.arr (JList.ofList (xs.toList ++ es)))
  | _, _ => .error .typeError

/-- The pagination loop of `extract`: while the last response has a `next`
link, fetch the next scripted result and extend the accumulator.  Inside the
loop every exception is caught and turns the whole extraction into `none`
(python `None`); an exhausted script is a failing request, likewise caught.
Also counts the page requests attempted inside the loop. -/
def extractLoop (jd : Json) (cur : Page) : List FetchResult → Option Json × Nat
  | [] => if cur.hasNext then (none, 1) else (some jd, 0)
  | .exn :: _ => if cur.hasNext then (none, 1) else (some jd, 0)
  | .ok p :: rest =>
    if cur.hasNext then
      match extendJson jd p.body with
      | .error _ => (none, 1)
      | .ok jd' =>
        let (r, n) := extractLoop jd' p rest
        (r, n + 1)
    else (some jd, 0)

/-- Result of `extract` together with the number of data requests issued
(requests to the repository endpoint, not counting `rate_limit` queries).
`result` is `.ok none` for a python `return None`, `.ok (some jd)` for a
successful return, and `.error e` for an uncaught exception. -/
structure ExtractOut where
  result : Except PyErr (Option Json)
  dataRequests : Nat
deriving Repr, DecidableEq

/-- `extract(endpoint, has_state)`.  The network is an oracle: `apiRemaining`
is the remaining quota reported by the rate-limit pre-check, `first` the
outcome of the initial request to the endpoint URL, `rest` the outcomes of the
successive `next`-link requests.  The endpoint string and `has_state` flag
only shape the URL, which the oracle abstracts, so they do not appear.
The initial request and its `res.json()` are outside the `try` block: a
failure there is an uncaught exception, not a `None` return.  The trailing
`get_rate_limit` call on success is a pure observation and is omitted. -/
def extract (apiRemaining : Nat) (first : FetchResult) (rest : List FetchResult) : ExtractOut :=
  if get_rate_limit apiRemaining ≠ 0 then
    match first with
    | .exn => ⟨.error .requestError, 1⟩
    | .ok p =>
      let (r, n) := extractLoop p.body p rest
      ⟨.ok r, n + 1⟩
  else ⟨.ok none, 0⟩

-- Sanity: zero quota short-circuits; a single page with no next link returns it.
example : extract 0 (.ok ⟨jarr [], false⟩) [] = ⟨.ok none, 0⟩ := rfl
example : extract 7 (.ok ⟨jarr [.num 1], false⟩) [] =
    ⟨.ok (some (jarr [.num 1])), 1⟩ := rfl
example : extract 7 (.ok ⟨jarr [.num 1], true⟩) [.ok ⟨jarr [.num 2], false⟩] =
    ⟨.ok (some (jarr [.num 1, .num 2])), 2⟩ := rfl
example : extract 7 (.ok ⟨jarr [.num 1], true⟩) [.exn] = ⟨.ok none, 2⟩ := rfl
example : extract 7 .exn [] = ⟨.error .requestError, 1⟩ := rfl

/-! ## The transform step: per-endpoint record mappings

Each mapping mirrors the `data_dict` literal of `transform_load` for one
endpoint: the same key names, in the same order, with the same raw-field
accesses in python's left-to-right evaluation order.  A row is an association
list from column name to value. -/

/-- A flat row: column names to JSON scalar values, in `data_dict` key order. -/
abbrev Row : Type := List (String × Json)

/-- `','.join([elem[k] for elem in j])`: projects each element of a list to its
`k` sub-field (which must be a string, as `str.join` requires) and joins with
a comma.  Iterating a non-list raises. -/
def joinKey (k : String) (j : Json) : Except PyErr Json :=
  match j with
  | .arr xs => do
    let ss ← xs.toList.mapM (fun x => do
      let v ← x.get k
      match v with
      | .str s => pure s
      | _ => Except.error PyErr.typeError)
    pure (.str (String.intercalate "," ss))
  | _ => .error .typeError

/-- The `data_dict` for the `contributors` endpoint. -/
def mapContributor (item : Json) : Except PyErr Row := do
  let id ← item.get "id"
  let node_id ← item.get "node_id"
  let login ← item.get "login"
  let contributions ← item.get "contributions"
  pure [("id", id), ("node_id", node_id), ("login", login),
        ("contributions", contributions)]

/-- Python's conditional expression `o['login'] if o else None`, used for the
nullable `author` and `committer` fields of a commit record. -/
def loginOrNull (o : Json) : Except PyErr Json :=
  if o.truthy then o.get "login" else pure Json.null

/-- The `data_dict` for the `commits` endpoint.  `author` and `committer` use
python's conditional expression `item[k]['login'] if item[k] else None`. -/
def mapCommit (item : Json) : Except PyErr Row := do
  let sha ← item.get "sha"
  let tree_sha ← (← (← item.get "commit").get "tree").get "sha"
  let parents_sha ← joinKey "sha" (← item.get "parents")
  let node_id ← item.get "node_id"
  let author ← loginOrNull (← item.get "author")
  let date_authored ← (← (← item.get "commit").get "author").get "date"
  let committer ← loginOrNull (← item.get "committer")
  let date_committed ← (← (← item.get "commit").get "committer").get "date"
  let message ← (← item.get "commit").get "message"
  let comments ← (← item.get "commit").get "comment_count"
  pure [("sha", sha), ("tree_sha", tree_sha), ("parents_sha", parents_sha),
        ("node_id", node_id), ("author", author), ("date_authored", date_authored),
        ("committer", committer), ("date_committed", date_committed),
        ("message", message), ("comments", comments)]

/-- The `data_dict` for the `issues` endpoint. -/
def mapIssue (item : Json) : Except PyErr Row := do
  let id ← item.get "id"
  let node_id ← item.get "node_id"
  let number ← item.get "number"
  let state ← item.get "state"
  let title ← item.get "title"
  let body ← item.get "body"
  let assignees ← joinKey "login" (← item.get "assignees")
  let labels ← joinKey "name" (← item.get "labels")
  let comments ← item.get "comments"
  let created_by ← (← item.get "user").get "login"
  let date_created ← item.get "created_at"
  let date_updated ← item.get "updated_at"
  let date_closed ← item.get "closed_at"
  pure [("id", id), ("node_id", node_id), ("number", number), ("state", state),
        ("title", title), ("body", body), ("assignees", assignees),
        ("labels", labels), ("comments", comments), ("created_by", created_by),
        ("date_created", date_created), ("date_updated", date_updated),
        ("date_closed", date_closed)]

/-- The `data_dict` for the `pulls` endpoint.  Unlike `issues`, there is no
`comments` entry in the source dict literal. -/
def mapPull (item : Json) : Except PyErr Row := do
  let id ← item.get "id"
  let node_id ← item.get "node_id"
  let number ← item.get "number"
  let state ← item.get "state"
  let title ← item.get "title"
  let body ← item.get "body"
  let assignees ← joinKey "login" (← item.get "assignees")
  let reviewers ← joinKey "login" (← item.get "requested_reviewers")
  let labels ← joinKey "name" (← item.get "labels")
  let created_by ← (← item.get "user").get "login"
  let date_created ← item.get "created_at"
  let date_updated ← item.get "updated_at"
  let date_closed ← item.get "closed_at"
  let date_merged ← item.get "merged_at"
  let merge_sha ← item.get "merge_commit_sha"
  let head_sha ← (← item.get "head").get "sha"
  let base_sha ← (← item.get "base").get "sha"
  pure [("id", id), ("node_id", node_id), ("number", number), ("state", state),
        ("title", title), ("body", body), ("assignees", assignees),
        ("reviewers", reviewers), ("labels", labels), ("created_by", created_by),
        ("date_created", date_created), ("date_updated", date_updated),
        ("date_closed", date_closed), ("date_merged", date_merged),
        ("merge_sha", merge_sha), ("head_sha", head_sha), ("base_sha", base_sha)]

-- Sanity: a contributor record maps to its row; a missing key is a KeyError.
example : mapContributor (jobj [("id", .num 1), ("node_id", .str "n"),
    ("login", .str "u"), ("contributions", .num 3)]) =
    .ok [("id", .num 1), ("node_id", .str "n"), ("login", .str "u"),
         ("contributions", .num 3)] := rfl
example : mapContributor (jobj [("id", .num 1)]) = .error .keyError := rfl
example : joinKey "login" (jarr []) = .ok (.str "") := rfl
example : joinKey "login" (jarr [jobj [("login", .str "a")],
    jobj [("login", .str "b")]]) = .ok (.str "a,b") := rfl

/-! ## The load step: SQLite store model

The store is an association list from table name to table; a table is the list
of its rows in insertion order.  `CREATE TABLE IF NOT EXISTS`, `INSERT OR
IGNORE` and the per-row `commit` are modelled at the level the DDL of
`transform_load` determines: each table's declared primary-key column, its
`NOT NULL` columns, and conflict-ignoring row insertion. -/

/-- The SQLite database file: created tables by name, each with its rows. -/
abbrev DB : Type := List (String × List Row)

/-- `CREATE TABLE IF NOT EXISTS n (...)`: adds an empty table when absent. -/
def ensureTable (db : DB) (n : String) : DB :=
  match db.lookup n with
  | some _ => db
  | none => db ++ [(n, [])]

/-- The schema-creation prelude of `transform_load`: the `if`/`elif` chain of
`CREATE TABLE IF NOT EXISTS` statements; unknown endpoints create nothing. -/
def createTable (db : DB) (endpoint : String) : DB :=
  if endpoint = "contributors" then ensureTable db "contributors"
  else if endpoint = "commits" then ensureTable db "commits"
  else if endpoint = "issues" then ensureTable db "issues"
  else if endpoint = "pulls" then ensureTable db "pulls"
  else db

/-- The primary-key column declared by each table's DDL: `contributors`,
`issues` and `pulls` declare `id INTEGER PRIMARY KEY`; `commits` declares
`sha VARCHAR(255) PRIMARY KEY`.  All are single-column keys. -/
def tablePK (endpoint : String) : String :=
  if endpoint = "commits" then "sha" else "id"

/-- Whether the table's primary-key column is a rowid alias: `id INTEGER
PRIMARY KEY` (contributors, issues, pulls) aliases SQLite's rowid, so a NULL
key is auto-assigned a fresh integer and the insert succeeds; `commits`'
`sha VARCHAR(255) PRIMARY KEY` is a plain (legacy-nullable) text key. -/
def tableRowidAlias (endpoint : String) : Bool :=
  if endpoint = "commits" then false else true

/-- The `NOT NULL` columns of each table's DDL.  Neither primary key appears
here: `id INTEGER PRIMARY KEY` is a rowid alias (a NULL id is auto-keyed, not
rejected), and the `sha` text primary key of `commits` admits NULL per
SQLite's legacy rule. -/
def tableNotNull (endpoint : String) : List String :=
  if endpoint = "contributors" then
    ["node_id", "login", "contributions"]
  else if endpoint = "commits" then
    ["tree_sha", "node_id", "date_authored", "date_committed", "message", "comments"]
  else if endpoint = "issues" then
    ["node_id", "number", "state", "title", "comments", "created_by",
     "date_created", "date_updated"]
  else if endpoint = "pulls" then
    ["node_id", "number", "state", "title", "created_by", "date_created",
     "date_updated", "head_sha", "base_sha"]
  else []

/-- Whether inserting `row` would violate one of the `NOT NULL` constraints:
some `NOT NULL` column receives `null` (a column absent from the insert's
column list also receives `null`). -/
def nullViolB (notNulls : List String) (row : Row) : Bool :=
  notNulls.any (fun c =>
    match List.lookup c row with
    | some v => v = Json.null
    | none => true)

/-- Whether the insert's primary-key column receives NULL (a key column absent
from the insert's column list also receives NULL). -/
def pkNullB (pk : String) (row : Row) : Bool :=
  match List.lookup pk row with
  | some v => v = Json.null
  | none => true

/-- Whether inserting `row` would collide with an existing row on the
primary-key column: an existing row carries the same non-null key value
(SQLite treats `NULL` key values as distinct from everything). -/
def pkConflictB (pk : String) (t : List Row) (row : Row) : Bool :=
  match List.lookup pk row with
  | some v => v ≠ Json.null && t.any (fun r => List.lookup pk r = some v)
  | none => false

/-- The fresh rowid SQLite assigns when NULL is inserted into a rowid-alias
key: one more than the largest integer key in the table (1 for an empty
table). -/
def freshRowid (pk : String) (t : List Row) : Int :=
  (t.foldl (fun m r =>
    match List.lookup pk r with
    | some (Json.num n) => max m n
    | _ => m) 0) + 1

/-- Set column `c` of a row to `v` (adding the column when absent). -/
def setCol (c : String) (v : Json) (row : Row) : Row :=
  if (List.lookup c row).isSome then
    row.map (fun kv => if kv.1 = c then (c, v) else kv)
  else row ++ [(c, v)]

/-- The row as stored when a rowid-alias key receives NULL: the key column is
replaced by the auto-assigned fresh rowid. -/
def autoKey (pk : String) (t : List Row) (row : Row) : Row :=
  setCol pk (Json.num (freshRowid pk t)) row

/-- `INSERT OR IGNORE`: the row is appended unless a constraint violation
(duplicate primary key or `NOT NULL` violation) makes the insert a silent
no-op.  A NULL key value never conflicts: on a rowid-alias key (`id INTEGER
PRIMARY KEY`) SQLite auto-assigns a fresh integer rowid and the insert
succeeds; on the plain text key of `commits` the NULL is stored as is.  The
per-row `conn.commit()` makes each append durable immediately. -/
def insertOrIgnore (pk : String) (rowidAlias : Bool) (notNulls : List String)
    (t : List Row) (row : Row) : List Row :=
  if nullViolB notNulls row then t
  else if pkNullB pk row then
    (if rowidAlias then t ++ [autoKey pk t row] else t ++ [row])
  else if pkConflictB pk t row then t
  else t ++ [row]

/-- Replace table `n`'s rows by `f` applied to them (other tables unchanged). -/
def updateTable (db : DB) (n : String) (f : List Row → List Row) : DB :=
  db.map (fun p => if p.1 = n then (p.1, f p.2) else p)

/-- `INSERT OR IGNORE INTO {endpoint}(...) VALUES (...)` + `conn.commit()`. -/
def dbInsert (db : DB) (endpoint : String) (row : Row) : DB :=
  updateTable db endpoint
    (fun t => insertOrIgnore (tablePK endpoint) (tableRowidAlias endpoint)
      (tableNotNull endpoint) t row)

/-- The per-item branch of the loop body of `transform_load`: builds the
`data_dict` for the endpoint, or `none` for the `else: print(...); return`
branch on an unknown endpoint. -/
def mapItem (endpoint : String) (item : Json) : Option (Except PyErr Row) :=
  if endpoint = "contributors" then some (mapContributor item)
  else if endpoint = "commits" then some (mapCommit item)
  else if endpoint = "issues" then some (mapIssue item)
  else if endpoint = "pulls" then some (mapPull item)
  else none

/-- `values = [data_dict[col] for col in columns]`: a `KeyError` when a column
is missing from the current record's dict. -/
def rowValues (row : Row) (cols : List String) : Except PyErr (List Json) :=
  cols.mapM (fun c =>
    match List.lookup c row with
    | some v => Except.ok v
    | none => Except.error PyErr.keyError)

/-- `if not columns: columns = list(data_dict.keys())` — `columns` starts as
`None` and is also refreshed if it were empty. -/
def resolveCols (cols : Option (List String)) (row : Row) : List String :=
  match cols with
  | none => row.map Prod.fst
  | some [] => row.map Prod.fst
  | some cs => cs

/-- The `for item in ...` loop of `transform_load`.  Returns the database as
committed so far, and the uncaught exception if one was raised.  The loop
threads the `columns` variable; an unknown endpoint returns at the first
record. -/
def loadLoop (endpoint : String) : DB → Option (List String) → List Json →
    DB × Option PyErr
  | db, _, [] => (db, none)
  | db, cols, item :: rest =>
    match mapItem endpoint item with
    | none => (db, none)
    | some (.error e) => (db, some e)
    | some (.ok row) =>
      let cs := resolveCols cols row
      match rowValues row cs with
      | .error e => (db, some e)
      | .ok vals => loadLoop endpoint (dbInsert db endpoint (cs.zip vals)) (some cs) rest

/-- `transform_load(conn, curs, json_data, endpoint)`.  The `data` parameter is
the value of `json.loads(json_data)` (in `main` the argument is
`json.dumps(extract(...))`, and the dumps/loads round trip is the identity on
the extracted value, with python `None` becoming JSON `null`).  Returns the
database as committed when the call returns or raises, plus the uncaught
exception if any. -/
def transform_load (db : DB) (data : Json) (endpoint : String) : DB × Option PyErr :=
  let db1 := createTable db endpoint
  match data.iterElems with
  | .error e => (db1, some e)
  | .ok items => loadLoop endpoint db1 none items

-- Sanity checks of the load layer.
example : transform_load [] (jarr []) "contributors" = ([("contributors", [])], none) := rfl
example : transform_load []
    (jarr [jobj [("id", .num 1), ("node_id", .str "n"), ("login", .str "u"),
                 ("contributions", .num 3)]]) "contributors" =
    ([("contributors", [[("id", .num 1), ("node_id", .str "n"),
        ("login", .str "u"), ("contributions", .num 3)]])], none) := rfl
example : transform_load [] (jarr [jobj [("x", .num 1)]]) "stars" = ([], none) := rfl
example : transform_load [] Json.null "contributors" =
    ([("contributors", [])], some .typeError) := rfl

/-! ## `main` -/

/-- `json.dumps` applied to the return value of `extract`: python `None`
serializes to the string `"null"`. -/
def dumpsOpt : Option Json → String
  | none => "null"
  | some j => j.dumps

/-- `json.loads (json.dumps x)`: the round trip is the identity on the JSON
value, with python `None` parsing back to JSON `null`. -/
def loadsDumps : Option Json → Json
  | none => Json.null
  | some j => j

/-- Python truthiness of a string: nonempty strings are truthy. -/
def truthyStr (s : String) : Bool := s ≠ ""

/-- How a run of `main` ends: normal completion (`conn.close()`), the
`sys.exit()` branch, or an uncaught exception.  Each outcome carries the
database file as committed at that point. -/
inductive RunResult where
  | completed (db : DB)
  | exited (db : DB)
  | crashed (e : PyErr) (db : DB)
deriving Repr, DecidableEq

/-- One `transform_load(...) if x else sys.exit()` line of `main`: the
extracted value is dumped to a string, the string's truthiness selects the
branch, and a raised exception aborts the run. -/
def mainStep (db : DB) (ex : Option Json) (endpoint : String) : Except RunResult DB :=
  if truthyStr (dumpsOpt ex) then
    match transform_load db (loadsDumps ex) endpoint with
    | (db', none) => .ok db'
    | (db', some e) => .error (.crashed e db')
  else .error (.exited db)

/-- `main()`: opens the database (`db0` is the pre-existing file contents, `[]`
for a fresh file) and runs the four endpoints in the fixed order contributors,
commits, issues, pulls.  The four `Option Json` arguments are the return
values of the four `extract` calls.  (Named `mainRun` because `main` is a
reserved entry-point name in Lean.) -/
def mainRun (db0 : DB) (exContributors exCommits exIssues exPulls : Option Json) :
    RunResult :=
  match mainStep db0 exContributors "contributors" with
  | .error r => r
  | .ok db1 =>
    match mainStep db1 exCommits "commits" with
    | .error r => r
    | .ok db2 =>
      match mainStep db2 exIssues "issues" with
      | .error r => r
      | .ok db3 =>
        match mainStep db3 exPulls "pulls" with
        | .error r => r
        | .ok db4 => .completed db4

/-! ## Helper lemmas: JSON lists and `Except` inversion -/

lemma JList.toList_ofList (l : List Json) : (JList.ofList l).toList = l := by
  induction l with
  | nil => rfl
  | cons x xs ih => simp [JList.ofList, JList.toList, ih]

lemma JList.ofList_toList : ∀ (xs : JList), JList.ofList xs.toList = xs
  | .nil => rfl
  | .cons x xs => by simp [JList.toList, JList.ofList, JList.ofList_toList xs]

lemma bindOk {α β : Type} {e : Except PyErr α} {f : α → Except PyErr β} {b : β}
    (h : e >>= f = .ok b) : ∃ a, e = .ok a ∧ f a = .ok b := by
  cases e with
  | error err => simp [Bind.bind, Except.bind] at h
  | ok a => exact ⟨a, rfl, by simpa [Bind.bind, Except.bind] using h⟩

/-! ## Helper lemmas: the pagination loop -/

/-- A well-formed chain of successor pages: every page before the last carries
a `next` link, the last does not, and every body parses as a JSON array. -/
def chainOk : Page → List Page → Prop
  | cur, [] => cur.hasNext = false
  | cur, q :: qs => cur.hasNext = true ∧ q.body.isArr = true ∧ chainOk q qs

lemma extendJson_arr (acc : List Json) (b : Json) (hb : b.isArr = true) :
    extendJson (jarr acc) b = .ok (jarr (acc ++ b.elems)) := by
  cases b with
  | arr ys =>
    simp [extendJson, jarr, Json.iterElems, Json.elems, JList.toList_ofList,
      Bind.bind, Except.bind, pure, Except.pure]
  | null => simp [Json.isArr] at hb
  | bool b => simp [Json.isArr] at hb
  | num n => simp [Json.isArr] at hb
  | str s => simp [Json.isArr] at hb
  | obj kvs => simp [Json.isArr] at hb

lemma extractLoop_success (pages : List Page) (tail : List FetchResult) :
    ∀ (acc : List Json) (cur : Page), chainOk cur pages →
    extractLoop (jarr acc) cur (pages.map FetchResult.ok ++ tail)
      = (some (jarr (acc ++ (pages.map (fun q => q.body.elems)).flatten)), pages.length) := by
  induction pages with
  | nil =>
    intro acc cur hchain
    have hnext : cur.hasNext = false := hchain
    cases tail with
    | nil => simp [extractLoop, hnext]
    | cons f fs => cases f <;> simp [extractLoop, hnext]
  | cons q qs ih =>
    intro acc cur hchain
    obtain ⟨hnext, harr, hrest⟩ := hchain
    have hext := extendJson_arr acc q.body harr
    simp only [List.map_cons, List.cons_append, extractLoop, hnext, if_true, hext,
      List.append_eq]
    rw [ih (acc ++ q.body.elems) q hrest]
    simp [List.append_assoc]

lemma extractLoop_failure (goods : List Page) (tail : List FetchResult) :
    ∀ (acc : List Json) (cur : Page), cur.hasNext = true →
    (∀ q ∈ goods, q.hasNext = true ∧ q.body.isArr = true) →
    extractLoop (jarr acc) cur (goods.map FetchResult.ok ++ FetchResult.exn :: tail)
      = (none, goods.length + 1) := by
  induction goods with
  | nil =>
    intro acc cur hnext _
    simp [extractLoop, hnext]
  | cons q qs ih =>
    intro acc cur hnext hgoods
    obtain ⟨hqnext, hqarr⟩ := hgoods q (List.mem_cons_self q qs)
    have hext := extendJson_arr acc q.body hqarr
    simp only [List.map_cons, List.cons_append, extractLoop, hnext, if_true, hext,
      List.append_eq]
    rw [ih (acc ++ q.body.elems) q hqnext
      (fun r hr => hgoods r (List.mem_cons_of_mem q hr))]
    simp

/-! ## Claims about `extract` (C4, C5, C7) -/

/-- C4 (counterexample): the claim says a failed page fetch — "whether on the
initial request or on a subsequent pagination request" — makes extraction
return NoResult.  But the initial request of `extract` is outside the `try`
block: with quota available and the very first request failing, `extract`
propagates the exception instead of returning `None`. -/
theorem extract_initial_failure_raises :
    (extract 5 FetchResult.exn []).result = .error .requestError ∧
    (Except.error .requestError : Except PyErr (Option Json)) ≠ .ok none := by
  exact ⟨rfl, by decide⟩

/-- C4 (amended): if any *subsequent* pagination fetch fails — after any
number of successfully fetched and appended pages — extraction returns
NoResult and the partial pages accumulated so far are discarded; a failure on
the *initial* request instead propagates as an uncaught exception. -/
theorem extract_pagination_failure_returns_none
    (apiRemaining : Nat) (p : Page) (goods : List Page) (tail : List FetchResult)
    (hquota : apiRemaining ≠ 0) (harr : p.body.isArr = true) (hnext : p.hasNext = true)
    (hgoods : ∀ q ∈ goods, q.hasNext = true ∧ q.body.isArr = true) :
    (extract apiRemaining (.ok p)
        (goods.map FetchResult.ok ++ FetchResult.exn :: tail)).result = .ok none := by
  have hbody : p.body = jarr p.body.elems := by
    cases hb : p.body <;> simp [Json.isArr, hb] at harr ⊢
    simp [jarr, Json.elems, JList.ofList_toList]
  simp only [extract, get_rate_limit, if_pos hquota]
  rw [hbody, extractLoop_failure goods tail p.body.elems p hnext hgoods]

/-- Witness for `extract_pagination_failure_returns_none`: a concrete two-page
script whose second pagination request fails. -/
theorem extract_pagination_failure_witness :
    (extract 5 (.ok ⟨jarr [.num 1], true⟩)
        ([⟨jarr [.num 2], true⟩].map FetchResult.ok ++ FetchResult.exn :: [])).result
      = .ok none :=
  extract_pagination_failure_returns_none 5 ⟨jarr [.num 1], true⟩
    [⟨jarr [.num 2], true⟩] [] (by decide) (by decide) (by decide) (by decide)

/-- C5: when the rate-limit pre-check reports zero remaining requests,
`extract` returns NoResult having issued no data request at all; and a data
request is issued exactly when the remaining quota is positive. -/
theorem extract_quota_short_circuit
    (apiRemaining : Nat) (first : FetchResult) (rest : List FetchResult) :
    (apiRemaining = 0 → extract apiRemaining first rest = ⟨.ok none, 0⟩) ∧
    ((extract apiRemaining first rest).dataRequests > 0 ↔ apiRemaining > 0) := by
  constructor
  · intro h
    subst h
    simp [extract, get_rate_limit]
  · by_cases h : apiRemaining = 0
    · subst h
      simp [extract, get_rate_limit]
    · simp only [extract, get_rate_limit, if_pos h]
      cases first with
      | exn => simpa using Nat.pos_of_ne_zero h
      | ok p =>
        constructor
        · intro _
          exact Nat.pos_of_ne_zero h
        · intro _
          exact Nat.succ_pos _

/-- Witness for `extract_quota_short_circuit` at quota 0 and at quota 5. -/
theorem extract_quota_short_circuit_witness :
    extract 0 FetchResult.exn [] = ⟨.ok none, 0⟩ ∧
    ((extract 5 FetchResult.exn []).dataRequests > 0 ↔ 5 > 0) :=
  ⟨(extract_quota_short_circuit 0 .exn []).1 rfl,
   (extract_quota_short_circuit 5 .exn []).2⟩

/-- C7: a successful multi-page extraction returns exactly the concatenation
of the per-page record lists in page order — the flat list of all records with
page N's records preceding page N+1's. -/
theorem extract_concatenates_pages_in_order
    (apiRemaining : Nat) (p : Page) (pages : List Page) (tail : List FetchResult)
    (hquota : apiRemaining ≠ 0) (harr : p.body.isArr = true) (hchain : chainOk p pages) :
    (extract apiRemaining (.ok p) (pages.map FetchResult.ok ++ tail)).result
      = .ok (some (jarr (p.body.elems ++ (pages.map (fun q => q.body.elems)).flatten))) := by
  have hbody : p.body = jarr p.body.elems := by
    cases hb : p.body <;> simp [Json.isArr, hb] at harr ⊢
    simp [jarr, Json.elems, JList.ofList_toList]
  simp only [extract, get_rate_limit, if_pos hquota]
  conv_lhs => rw [hbody]
  rw [extractLoop_success pages tail p.body.elems p hchain]

/-- Witness for `extract_concatenates_pages_in_order`: a concrete two-page
script flattening to the records in order. -/
theorem extract_concatenates_pages_witness :
    (extract 5 (.ok ⟨jarr [.num 1, .num 2], true⟩)
        ([(⟨jarr [.num 3], false⟩ : Page)].map FetchResult.ok ++ [])).result
      = .ok (some (jarr [.num 1, .num 2, .num 3])) :=
  extract_concatenates_pages_in_order 5 ⟨jarr [.num 1, .num 2], true⟩
    [⟨jarr [.num 3], false⟩] [] (by decide) (by decide) ⟨rfl, rfl, rfl⟩

/-! ## Helper lemmas: the store -/

/-- The rows of table `n` (no rows when the table does not exist). -/
def tableOf (db : DB) (n : String) : List Row := (db.lookup n).getD []

lemma updateTable_id (db : DB) (n : String) : updateTable db n (fun t => t) = db := by
  induction db with
  | nil => rfl
  | cons p ps ih =>
    by_cases hk : p.1 = n <;> simp [updateTable, hk] at ih ⊢ <;> exact ih

lemma updateTable_comp (db : DB) (n : String) (f g : List Row → List Row) :
    updateTable (updateTable db n f) n g = updateTable db n (g ∘ f) := by
  induction db with
  | nil => rfl
  | cons p ps ih =>
    by_cases hk : p.1 = n <;> simp [updateTable, hk] at ih ⊢ <;> exact ih

lemma lookup_updateTable (db : DB) (n m : String) (f : List Row → List Row) :
    (updateTable db n f).lookup m
      = if m = n then (db.lookup m).map f else db.lookup m := by
  induction db with
  | nil => simp [updateTable]
  | cons p ps ih =>
    obtain ⟨k, t⟩ := p
    simp only [updateTable, List.map_cons] at ih ⊢
    by_cases hkn : k = n
    · subst hkn
      rw [if_pos rfl]
      by_cases hkm : m = k
      · subst hkm
        simp [List.lookup]
      · have hbeq : (m == k) = false := beq_eq_false_iff_ne.mpr hkm
        simp only [List.lookup, hbeq]
        rw [ih]
    · have hif : (if k = n then (k, f t) else (k, t)) = (k, t) := if_neg hkn
      rw [hif]
      by_cases hkm : m = k
      · subst hkm
        simp [List.lookup, hkn]
      · have hbeq : (m == k) = false := beq_eq_false_iff_ne.mpr hkm
        simp only [List.lookup, hbeq]
        rw [ih]

/-! ## Helper lemmas: conflict-ignoring insertion -/

/-- Some row of `t` carries `v` as its `pk`-column value. -/
def HasPK (pk : String) (t : List Row) (v : Json) : Prop :=
  ∃ r ∈ t, List.lookup pk r = some v

/-- A row whose insertion is deterministic on re-run: it either violates a
`NOT NULL` constraint (and is always ignored) or carries a non-null
primary-key value (and collides with itself on re-run).  Every row built from
real API data satisfies this: ids and shas are never null. -/
def rowKeyOkB (pk : String) (notNulls : List String) (r : Row) : Bool :=
  nullViolB notNulls r ||
    (match List.lookup pk r with
     | some v => v ≠ Json.null
     | none => false)

lemma lookup_map_setCol (c : String) (v : Json) :
    ∀ (row : Row), (List.lookup c row).isSome = true →
      List.lookup c (row.map (fun kv => if kv.1 = c then (c, v) else kv)) = some v := by
  intro row
  induction row with
  | nil => intro h; simp [List.lookup] at h
  | cons kv rs ih =>
    obtain ⟨k, w⟩ := kv
    intro h
    by_cases hk : k = c
    · subst hk
      rw [List.map_cons, if_pos (show ((k, w).1 = k) from rfl)]
      simp [List.lookup]
    · have hbeq : (c == k) = false := beq_eq_false_iff_ne.mpr (fun he => hk he.symm)
      rw [List.map_cons, if_neg (show ¬ ((k, w).1 = c) from hk)]
      simp only [List.lookup, hbeq] at h ⊢
      exact ih h

lemma lookup_append_none_row (l1 l2 : Row) (n : String)
    (h : List.lookup n l1 = none) : List.lookup n (l1 ++ l2) = List.lookup n l2 := by
  induction l1 with
  | nil => rfl
  | cons p ps ih =>
    obtain ⟨k, w⟩ := p
    simp only [List.cons_append, List.lookup] at h ⊢
    cases hk : (n == k)
    · rw [hk] at h
      simp only at h ⊢
      exact ih h
    · rw [hk] at h
      simp at h

lemma lookup_setCol_self (c : String) (v : Json) (row : Row) :
    List.lookup c (setCol c v row) = some v := by
  unfold setCol
  by_cases h : (List.lookup c row).isSome = true
  · rw [if_pos h]
    exact lookup_map_setCol c v row h
  · rw [if_neg h]
    have hn : List.lookup c row = none := by
      cases hm : List.lookup c row with
      | none => rfl
      | some w => rw [hm] at h; simp at h
    rw [lookup_append_none_row row [(c, v)] c hn]
    simp [List.lookup]

lemma freshRowid_gt (pk : String) (t : List Row) :
    ∀ r ∈ t, ∀ n : Int, List.lookup pk r = some (Json.num n) → n < freshRowid pk t := by
  have hstep : ∀ (init : Int) (l : List Row),
      init ≤ l.foldl (fun m r =>
        match List.lookup pk r with
        | some (Json.num n) => max m n
        | _ => m) init := by
    intro init l
    induction l generalizing init with
    | nil => exact le_refl init
    | cons q l ih =>
      refine le_trans ?_ (ih _)
      cases hq : List.lookup pk q with
      | none => simp [hq]
      | some w => cases w <;> simp [hq] <;> exact le_sup_left
  have hmem : ∀ (l : List Row) (init : Int), ∀ r ∈ l, ∀ n : Int,
      List.lookup pk r = some (Json.num n) →
      n ≤ l.foldl (fun m r =>
        match List.lookup pk r with
        | some (Json.num n) => max m n
        | _ => m) init := by
    intro l
    induction l with
    | nil => intro init r hr; simp at hr
    | cons q l ih =>
      intro init r hr n hn
      rcases List.mem_cons.mp hr with rfl | hr'
      · simp only [List.foldl_cons, hn]
        exact le_trans (le_max_right init n) (hstep _ l)
      · exact ih _ r hr' n hn
  intro r hr n hn
  unfold freshRowid
  exact lt_of_le_of_lt (hmem t 0 r hr n hn) (lt_add_one _)

lemma insertOrIgnore_shape (pk : String) (al : Bool) (nn : List String)
    (t : List Row) (r : Row) :
    insertOrIgnore pk al nn t r = t ∨
      ∃ b, insertOrIgnore pk al nn t r = t ++ [b] := by
  unfold insertOrIgnore
  split_ifs <;> simp

lemma insertOrIgnore_noop_nullViol {pk : String} {al : Bool} {nn : List String}
    {t : List Row} {r : Row} (h : nullViolB nn r = true) :
    insertOrIgnore pk al nn t r = t := by
  simp [insertOrIgnore, h]

lemma hasPK_insertOrIgnore {pk : String} {al : Bool} {nn : List String}
    {t : List Row} {r : Row} {v : Json} (h : HasPK pk t v) :
    HasPK pk (insertOrIgnore pk al nn t r) v := by
  rcases insertOrIgnore_shape pk al nn t r with he | ⟨b, he⟩ <;> rw [he]
  · exact h
  · obtain ⟨r', hr', hl⟩ := h
    exact ⟨r', List.mem_append_left _ hr', hl⟩

lemma hasPK_foldl {pk : String} {al : Bool} {nn : List String} (rows : List Row) :
    ∀ {t : List Row} {v : Json}, HasPK pk t v →
      HasPK pk (rows.foldl (insertOrIgnore pk al nn) t) v := by
  induction rows with
  | nil => intro t v h; exact h
  | cons r rows ih =>
    intro t v h
    exact ih (hasPK_insertOrIgnore h)

lemma pkNullB_false_of_lookup {pk : String} {r : Row} {v : Json}
    (hv : List.lookup pk r = some v) (hvn : v ≠ Json.null) :
    pkNullB pk r = false := by
  simp [pkNullB, hv, hvn]

lemma hasPK_self {pk : String} {al : Bool} {nn : List String} {t : List Row}
    {r : Row} {v : Json} (hnv : nullViolB nn r = false)
    (hv : List.lookup pk r = some v) (hvn : v ≠ Json.null) :
    HasPK pk (insertOrIgnore pk al nn t r) v := by
  unfold insertOrIgnore
  rw [hnv, pkNullB_false_of_lookup hv hvn]
  by_cases hc : pkConflictB pk t r = true
  · simp only [Bool.false_eq_true, if_false, hc, if_true]
    unfold pkConflictB at hc
    rw [hv] at hc
    simp only [Bool.and_eq_true, List.any_eq_true, decide_eq_true_eq] at hc
    obtain ⟨-, r', hr', hl⟩ := hc
    exact ⟨r', hr', hl⟩
  · simp only [Bool.false_eq_true, if_false, hc, if_false]
    exact ⟨r, List.mem_append_right _ (List.mem_singleton_self r), hv⟩

lemma insertOrIgnore_noop_hasPK {pk : String} {al : Bool} {nn : List String}
    {t : List Row} {r : Row} {v : Json} (hv : List.lookup pk r = some v)
    (hvn : v ≠ Json.null) (h : HasPK pk t v) :
    insertOrIgnore pk al nn t r = t := by
  unfold insertOrIgnore
  by_cases hnv : nullViolB nn r = true
  · simp [hnv]
  · have hc : pkConflictB pk t r = true := by
      unfold pkConflictB
      rw [hv]
      simp only [Bool.and_eq_true, List.any_eq_true, decide_eq_true_eq]
      obtain ⟨r', hr', hl⟩ := h
      exact ⟨by simpa using hvn, r', hr', hl⟩
    simp [hnv, hc, pkNullB_false_of_lookup hv hvn]

lemma foldl_insertOrIgnore_idem (pk : String) (al : Bool) (nn : List String)
    (rows : List Row) (h : ∀ r ∈ rows, rowKeyOkB pk nn r = true) :
    ∀ t : List Row,
      rows.foldl (insertOrIgnore pk al nn) (rows.foldl (insertOrIgnore pk al nn) t)
        = rows.foldl (insertOrIgnore pk al nn) t := by
  induction rows with
  | nil => intro t; rfl
  | cons r rows ih =>
    intro t
    have hr := h r (List.mem_cons_self r rows)
    have hrest : ∀ x ∈ rows, rowKeyOkB pk nn x = true :=
      fun x hx => h x (List.mem_cons_of_mem r hx)
    simp only [List.foldl_cons]
    have hnoop :
        insertOrIgnore pk al nn
            (rows.foldl (insertOrIgnore pk al nn) (insertOrIgnore pk al nn t r)) r
          = rows.foldl (insertOrIgnore pk al nn) (insertOrIgnore pk al nn t r) := by
      by_cases hnv : nullViolB nn r = true
      · exact insertOrIgnore_noop_nullViol hnv
      · have hnv' : nullViolB nn r = false := by
          simpa using hnv
        unfold rowKeyOkB at hr
        rw [hnv'] at hr
        simp only [Bool.false_or] at hr
        cases hl : List.lookup pk r with
        | none => rw [hl] at hr; simp at hr
        | some v =>
          rw [hl] at hr
          simp only [decide_eq_true_eq] at hr
          exact insertOrIgnore_noop_hasPK hl hr
            (hasPK_foldl rows (hasPK_self hnv' hl hr))
    rw [hnoop]
    exact ih hrest (insertOrIgnore pk al nn t r)

/-- No two distinct rows of `t` share a non-null `pk`-column value. -/
def pkDistinct (pk : String) (t : List Row) : Prop :=
  t.Pairwise (fun r1 r2 => ∀ v, List.lookup pk r1 = some v → v ≠ Json.null →
    ¬ List.lookup pk r2 = some v)

lemma pkDistinct_append_one {pk : String} {t : List Row} {b : Row}
    (h : pkDistinct pk t)
    (hb : ∀ a ∈ t, ∀ v, List.lookup pk a = some v → v ≠ Json.null →
      ¬ List.lookup pk b = some v) : pkDistinct pk (t ++ [b]) := by
  unfold pkDistinct at h ⊢
  rw [List.pairwise_append]
  refine ⟨h, List.pairwise_singleton _ _, ?_⟩
  intro a ha b' hb'
  rw [List.mem_singleton] at hb'
  subst hb'
  exact hb a ha

lemma pkDistinct_insertOrIgnore {pk : String} {al : Bool} {nn : List String}
    {t : List Row} {r : Row} (h : pkDistinct pk t) :
    pkDistinct pk (insertOrIgnore pk al nn t r) := by
  unfold insertOrIgnore
  split_ifs with h1 h2 h3 h4
  · exact h
  · -- NULL key, rowid alias: the appended row carries the fresh rowid,
    -- strictly greater than every integer key in the table
    refine pkDistinct_append_one h ?_
    intro a ha v hav hvn hcontra
    unfold autoKey at hcontra
    rw [lookup_setCol_self] at hcontra
    obtain rfl := Option.some.inj hcontra.symm
    exact absurd (freshRowid_gt pk t a ha _ hav) (lt_irrefl _)
  · -- NULL key, plain key column: the appended row's key is NULL (or absent),
    -- never equal to a non-null key
    refine pkDistinct_append_one h ?_
    intro a ha v hav hvn hcontra
    unfold pkNullB at h2
    rw [hcontra] at h2
    simp only [decide_eq_true_eq] at h2
    exact hvn h2
  · exact h
  · refine pkDistinct_append_one h ?_
    intro a ha v hav hvn hrv
    apply h4
    unfold pkConflictB
    rw [hrv]
    simp only [Bool.and_eq_true, List.any_eq_true, decide_eq_true_eq]
    exact ⟨by simpa using hvn, a, ha, hav⟩

lemma pkDistinct_foldl {pk : String} {al : Bool} {nn : List String} (rows : List Row) :
    ∀ {t : List Row}, pkDistinct pk t →
      pkDistinct pk (rows.foldl (insertOrIgnore pk al nn) t) := by
  induction rows with
  | nil => intro t h; exact h
  | cons r rows ih =>
    intro t h
    exact ih (pkDistinct_insertOrIgnore h)

/-! ## Helper lemmas: decomposing `transform_load` -/

/-- The row sequence the loop of `transform_load` would insert, and the
exception it would raise: the loop's control flow never depends on the
database state, so this mirror of `loadLoop` computes both without it. -/
def mappedRows (endpoint : String) : Option (List String) → List Json →
    List Row × Option PyErr
  | _, [] => ([], none)
  | cols, item :: rest =>
    match mapItem endpoint item with
    | none => ([], none)
    | some (.error e) => ([], some e)
    | some (.ok row) =>
      let cs := resolveCols cols row
      match rowValues row cs with
      | .error e => ([], some e)
      | .ok vals =>
        let m := mappedRows endpoint (some cs) rest
        ((cs.zip vals) :: m.1, m.2)

lemma loadLoop_eq (endpoint : String) (items : List Json) :
    ∀ (db : DB) (cols : Option (List String)),
    loadLoop endpoint db cols items
      = ((mappedRows endpoint cols items).1.foldl
           (fun d r => dbInsert d endpoint r) db,
         (mappedRows endpoint cols items).2) := by
  induction items with
  | nil => intro db cols; rfl
  | cons item rest ih =>
    intro db cols
    simp only [loadLoop, mappedRows]
    cases hmi : mapItem endpoint item with
    | none => rfl
    | some res =>
      cases res with
      | error e => rfl
      | ok row =>
        simp only
        cases hrv : rowValues row (resolveCols cols row) with
        | error e => rfl
        | ok vals =>
          simp only [List.foldl_cons]
          exact ih (dbInsert db endpoint ((resolveCols cols row).zip vals))
            (some (resolveCols cols row))

lemma foldl_dbInsert (e : String) (rows : List Row) :
    ∀ db : DB,
    rows.foldl (fun d r => dbInsert d e r) db
      = updateTable db e
          (fun t => rows.foldl
            (insertOrIgnore (tablePK e) (tableRowidAlias e) (tableNotNull e)) t) := by
  induction rows with
  | nil =>
    intro db
    simpa using (updateTable_id db e).symm
  | cons r rows ih =>
    intro db
    simp only [List.foldl_cons]
    rw [ih (dbInsert db e r)]
    unfold dbInsert
    rw [updateTable_comp]
    rfl

/-- The items the loop iterates over (empty when `json.loads` yields a
non-iterable value, in which case the loop is never entered). -/
def elemsOfData (data : Json) : List Json :=
  match data.iterElems with
  | .ok items => items
  | .error _ => []

/-- The rows a `transform_load` call would insert for `data` on `endpoint`. -/
def rowsOf (endpoint : String) (data : Json) : List Row :=
  (mappedRows endpoint none (elemsOfData data)).1

lemma transform_load_fst (endpoint : String) (db : DB) (data : Json) :
    (transform_load db data endpoint).1
      = updateTable (createTable db endpoint) endpoint
          (fun t => (rowsOf endpoint data).foldl
            (insertOrIgnore (tablePK endpoint) (tableRowidAlias endpoint)
              (tableNotNull endpoint)) t) := by
  unfold transform_load rowsOf elemsOfData
  cases h : data.iterElems with
  | error e =>
    simp only
    exact (updateTable_id (createTable db endpoint) endpoint).symm
  | ok items =>
    simp only
    rw [loadLoop_eq, foldl_dbInsert]

lemma lookup_append_none (l1 l2 : DB) (n : String) (h : l1.lookup n = none) :
    (l1 ++ l2).lookup n = l2.lookup n := by
  induction l1 with
  | nil => rfl
  | cons p ps ih =>
    obtain ⟨k, t⟩ := p
    simp only [List.cons_append, List.lookup] at h ⊢
    cases hk : (n == k)
    · rw [hk] at h
      simp only at h ⊢
      exact ih h
    · rw [hk] at h
      simp at h

lemma lookup_ensureTable_self (db : DB) (n : String) :
    (ensureTable db n).lookup n = some (tableOf db n) := by
  unfold ensureTable tableOf
  cases h : db.lookup n with
  | some t => simp [h]
  | none =>
    rw [lookup_append_none db [(n, [])] n h]
    simp [List.lookup, h]

lemma ensureTable_of_isSome {db : DB} {n : String}
    (h : (db.lookup n).isSome = true) : ensureTable db n = db := by
  unfold ensureTable
  cases hm : db.lookup n with
  | some t => rfl
  | none => rw [hm] at h; simp at h

lemma createTable_of_isSome {db : DB} {e : String}
    (h : (db.lookup e).isSome = true) : createTable db e = db := by
  unfold createTable
  split_ifs with h1 h2 h3 h4
  · subst h1; exact ensureTable_of_isSome h
  · subst h2; exact ensureTable_of_isSome h
  · subst h3; exact ensureTable_of_isSome h
  · subst h4; exact ensureTable_of_isSome h
  · rfl

lemma createTable_after (db : DB) (e : String) (F : List Row → List Row) :
    createTable (updateTable (createTable db e) e F) e
      = updateTable (createTable db e) e F := by
  by_cases hk : e = "contributors" ∨ e = "commits" ∨ e = "issues" ∨ e = "pulls"
  · apply createTable_of_isSome
    rw [lookup_updateTable, if_pos rfl]
    have hsome : ((createTable db e).lookup e).isSome = true := by
      rcases hk with h | h | h | h <;> subst h <;>
        simp [createTable, lookup_ensureTable_self]
    cases hm : (createTable db e).lookup e with
    | none => rw [hm] at hsome; simp at hsome
    | some t => simp
  · push_neg at hk
    obtain ⟨h1, h2, h3, h4⟩ := hk
    simp [createTable, h1, h2, h3, h4]

/-! ## Claims about `transform_load` (C10, C6, C2) -/

/-- C10: for any endpoint identifier outside the four known values,
`transform_load` performs no database writes — it creates no table and inserts
no rows, leaving the database exactly as it was — and its loop returns upon
encountering the first record, whatever follows it. -/
theorem transform_load_unknown_endpoint (db : DB) (data : Json) (endpoint : String)
    (h : endpoint ≠ "contributors" ∧ endpoint ≠ "commits" ∧
         endpoint ≠ "issues" ∧ endpoint ≠ "pulls") :
    (transform_load db data endpoint).1 = db ∧
    (∀ (db' : DB) (cols : Option (List String)) (item : Json) (rest : List Json),
      loadLoop endpoint db' cols (item :: rest) = (db', none)) := by
  obtain ⟨h1, h2, h3, h4⟩ := h
  have hmap : ∀ item, mapItem endpoint item = none := by
    intro item
    simp [mapItem, h1, h2, h3, h4]
  constructor
  · rw [transform_load_fst]
    have hct : createTable db endpoint = db := by
      simp [createTable, h1, h2, h3, h4]
    have hrows : rowsOf endpoint data = [] := by
      unfold rowsOf
      cases elemsOfData data with
      | nil => rfl
      | cons i rest => simp [mappedRows, hmap]
    rw [hct, hrows]
    simpa using updateTable_id db endpoint
  · intro db' cols item rest
    simp [loadLoop, hmap]

/-- Witness for `transform_load_unknown_endpoint` at the endpoint `stars`. -/
theorem transform_load_unknown_endpoint_witness :
    (transform_load [("contributors", [])] (jarr [jobj [("x", .num 1)]]) "stars").1
        = [("contributors", [])] ∧
    loadLoop "stars" [] none [Json.null] = ([], none) :=
  ⟨(transform_load_unknown_endpoint [("contributors", [])] (jarr [jobj [("x", .num 1)]])
      "stars" (by decide)).1,
   (transform_load_unknown_endpoint [("contributors", [])] (jarr [jobj [("x", .num 1)]])
      "stars" (by decide)).2 [] none Json.null []⟩

/-- C6: loading the same records twice leaves the database identical — the
second run's inserts all collide on the primary key (or violate the same
`NOT NULL` constraint) and are silently ignored, so row count and content do
not change on re-run.  The hypothesis states that each inserted row carries a
non-null primary-key value or is a constraint-violating row (real API records
always have non-null ids and shas). -/
theorem transform_load_idempotent (db : DB) (data : Json) (endpoint : String)
    (h : ∀ r ∈ rowsOf endpoint data,
      rowKeyOkB (tablePK endpoint) (tableNotNull endpoint) r = true) :
    (transform_load (transform_load db data endpoint).1 data endpoint).1
      = (transform_load db data endpoint).1 := by
  rw [transform_load_fst endpoint (transform_load db data endpoint).1 data,
      transform_load_fst endpoint db data, createTable_after, updateTable_comp]
  congr 1
  funext t
  exact foldl_insertOrIgnore_idem _ _ _ _ h t

/-- Witness for `transform_load_idempotent`: a concrete contributor batch
loaded twice. -/
theorem transform_load_idempotent_witness :
    (transform_load
        (transform_load [] (jarr [jobj [("id", .num 1), ("node_id", .str "n"),
          ("login", .str "u"), ("contributions", .num 3)]]) "contributors").1
        (jarr [jobj [("id", .num 1), ("node_id", .str "n"),
          ("login", .str "u"), ("contributions", .num 3)]]) "contributors").1
      = (transform_load [] (jarr [jobj [("id", .num 1), ("node_id", .str "n"),
          ("login", .str "u"), ("contributions", .num 3)]]) "contributors").1 :=
  transform_load_idempotent [] _ "contributors" (by decide)

/-- C2 (counterexample): the `contributors` DDL declares `id INTEGER PRIMARY
KEY` — a single-column key, not the claimed composite key `(id, node_id,
login)`.  Two records with the same `id` but different `node_id`/`login` do
not collide on the claimed tuple, yet the second insert is ignored: the loaded
table keeps only the first row. -/
theorem contributors_pk_single_column_counterexample :
    transform_load [] (jarr [
        jobj [("id", .num 1), ("node_id", .str "a"), ("login", .str "x"),
              ("contributions", .num 5)],
        jobj [("id", .num 1), ("node_id", .str "b"), ("login", .str "y"),
              ("contributions", .num 7)]]) "contributors"
      = ([("contributors",
            [[("id", .num 1), ("node_id", .str "a"), ("login", .str "x"),
              ("contributions", .num 5)]])], none) ∧
    ((Json.num 1, Json.str "a", Json.str "x") : Json × Json × Json)
      ≠ (Json.num 1, Json.str "b", Json.str "y") :=
  ⟨rfl, by decide⟩

/-- C2 (amended): each destination table's primary key is a single column —
`id` for `contributors`, `issues` and `pulls` (an `INTEGER PRIMARY KEY` rowid
alias), `sha` for `commits` (a plain text key).  Tables produced by
`transform_load` from a fresh database never contain two rows sharing a
non-null value of that key column; an insert whose key value is non-null (and
which violates no `NOT NULL` constraint) is ignored as a duplicate exactly
when it collides with an existing row on that single key column; a `NOT NULL`
violation is always ignored; and a NULL key value is never ignored — on a
rowid-alias key the row is inserted with a fresh auto-assigned integer key,
and on the plain text key of `commits` the NULL is stored as is. -/
theorem tables_enforce_single_column_pk :
    (tablePK "contributors" = "id" ∧ tablePK "commits" = "sha" ∧
     tablePK "issues" = "id" ∧ tablePK "pulls" = "id" ∧
     tableRowidAlias "contributors" = true ∧ tableRowidAlias "commits" = false ∧
     tableRowidAlias "issues" = true ∧ tableRowidAlias "pulls" = true) ∧
    (∀ (endpoint : String) (data : Json),
      pkDistinct (tablePK endpoint)
        (tableOf (transform_load [] data endpoint).1 endpoint)) ∧
    (∀ (pk : String) (al : Bool) (nn : List String) (t : List Row) (row : Row),
      nullViolB nn row = false → pkNullB pk row = false →
      (insertOrIgnore pk al nn t row = t ↔ pkConflictB pk t row = true)) ∧
    (∀ (pk : String) (al : Bool) (nn : List String) (t : List Row) (row : Row),
      nullViolB nn row = true → insertOrIgnore pk al nn t row = t) ∧
    (∀ (pk : String) (nn : List String) (t : List Row) (row : Row),
      nullViolB nn row = false → pkNullB pk row = true →
      insertOrIgnore pk true nn t row = t ++ [autoKey pk t row] ∧
      insertOrIgnore pk false nn t row = t ++ [row]) := by
  refine ⟨⟨rfl, rfl, rfl, rfl, rfl, rfl, rfl, rfl⟩, ?_, ?_, ?_, ?_⟩
  · intro endpoint data
    rw [transform_load_fst]
    unfold tableOf
    rw [lookup_updateTable, if_pos rfl]
    have hbase : (createTable [] endpoint).lookup endpoint = none ∨
        (createTable [] endpoint).lookup endpoint = some [] := by
      unfold createTable
      split_ifs with h1 h2 h3 h4
      · subst h1; right; simp [ensureTable, List.lookup]
      · subst h2; right; simp [ensureTable, List.lookup]
      · subst h3; right; simp [ensureTable, List.lookup]
      · subst h4; right; simp [ensureTable, List.lookup]
      · left; rfl
    rcases hbase with hb | hb <;> rw [hb]
    · exact List.Pairwise.nil
    · exact pkDistinct_foldl _ List.Pairwise.nil
  · intro pk al nn t row h1 h2
    constructor
    · intro he
      by_cases h3 : pkConflictB pk t row = true
      · exact h3
      · exfalso
        have : insertOrIgnore pk al nn t row = t ++ [row] := by
          simp [insertOrIgnore, h1, h2, h3]
        rw [this] at he
        have hlen := congrArg List.length he
        simp at hlen
    · intro h3
      simp [insertOrIgnore, h1, h2, h3]
  · intro pk al nn t row h1
    exact insertOrIgnore_noop_nullViol h1
  · intro pk nn t row h1 h2
    constructor
    · simp [insertOrIgnore, h1, h2]
    · simp [insertOrIgnore, h1, h2]

/-- Witness for `tables_enforce_single_column_pk`: a loaded two-record batch
with distinct ids, the exact-collision condition on a concrete non-null-key
insert, and the auto-keyed insert of a concrete NULL-id row. -/
theorem tables_enforce_single_column_pk_witness :
    pkDistinct (tablePK "contributors")
      (tableOf (transform_load [] (jarr [
        jobj [("id", .num 1), ("node_id", .str "a"), ("login", .str "x"),
              ("contributions", .num 5)],
        jobj [("id", .num 2), ("node_id", .str "b"), ("login", .str "y"),
              ("contributions", .num 7)]]) "contributors").1 "contributors") ∧
    (insertOrIgnore "id" true ["login"]
        [[("id", .num 1), ("login", .str "u")]]
        [("id", .num 1), ("login", .str "w")]
      = [[("id", .num 1), ("login", .str "u")]] ↔
      pkConflictB "id" [[("id", .num 1), ("login", .str "u")]]
        [("id", .num 1), ("login", .str "w")] = true) ∧
    insertOrIgnore "id" true ["login"] [] [("id", .null), ("login", .str "u")]
      = [] ++ [autoKey "id" [] [("id", .null), ("login", .str "u")]] :=
  ⟨tables_enforce_single_column_pk.2.1 "contributors" _,
   tables_enforce_single_column_pk.2.2.1 "id" true ["login"] _ _
     (by decide) (by decide),
   (tables_enforce_single_column_pk.2.2.2.2 "id" ["login"] [] _
     (by decide) (by decide)).1⟩

/-! ## Claim about `main` (C1) -/

/-- C1 (code bug): `main` wraps each `extract` result in `json.dumps` *before*
the truthiness test, and `json.dumps(None)` is the nonempty — hence truthy —
string `"null"`, so the `sys.exit()` branch is dead code.  On a NoResult
extraction the run still calls `transform_load`, which creates the endpoint's
table and then crashes with a `TypeError` while iterating `None`; and on an
empty extraction result (`"[]"`, also truthy) the run does not abort at all
but proceeds to the next endpoint. -/
theorem main_dead_exit_branch :
    truthyStr (dumpsOpt none) = true ∧
    mainRun [] none none none none
      = .crashed .typeError [("contributors", [])] ∧
    mainRun [] (some (jarr [])) none none none
      = .crashed .typeError [("contributors", []), ("commits", [])] :=
  ⟨rfl, rfl, rfl⟩

/-! ## Helper lemmas: inversion of the record mappings -/

lemma mapContributor_inv {item : Json} {r : Row} (h : mapContributor item = .ok r) :
    ∃ vid vnode vlogin vcontrib,
      item.get "id" = .ok vid ∧ item.get "node_id" = .ok vnode ∧
      item.get "login" = .ok vlogin ∧ item.get "contributions" = .ok vcontrib ∧
      r = [("id", vid), ("node_id", vnode), ("login", vlogin),
           ("contributions", vcontrib)] := by
  unfold mapContributor at h
  obtain ⟨vid, h1, h⟩ := bindOk h
  obtain ⟨vnode, h2, h⟩ := bindOk h
  obtain ⟨vlogin, h3, h⟩ := bindOk h
  obtain ⟨vcontrib, h4, h⟩ := bindOk h
  simp only [pure, Except.pure, Except.ok.injEq] at h
  exact ⟨vid, vnode, vlogin, vcontrib, h1, h2, h3, h4, h.symm⟩

lemma mapIssue_inv {item : Json} {r : Row} (h : mapIssue item = .ok r) :
    ∃ vid vnode vnum vstate vtitle vbody aJ aV lJ lV vcom uJ vuser vca vua vcl,
      item.get "id" = .ok vid ∧ item.get "node_id" = .ok vnode ∧
      item.get "number" = .ok vnum ∧ item.get "state" = .ok vstate ∧
      item.get "title" = .ok vtitle ∧ item.get "body" = .ok vbody ∧
      item.get "assignees" = .ok aJ ∧ joinKey "login" aJ = .ok aV ∧
      item.get "labels" = .ok lJ ∧ joinKey "name" lJ = .ok lV ∧
      item.get "comments" = .ok vcom ∧ item.get "user" = .ok uJ ∧
      uJ.get "login" = .ok vuser ∧ item.get "created_at" = .ok vca ∧
      item.get "updated_at" = .ok vua ∧ item.get "closed_at" = .ok vcl ∧
      r = [("id", vid), ("node_id", vnode), ("number", vnum), ("state", vstate),
           ("title", vtitle), ("body", vbody), ("assignees", aV), ("labels", lV),
           ("comments", vcom), ("created_by", vuser), ("date_created", vca),
           ("date_updated", vua), ("date_closed", vcl)] := by
  unfold mapIssue at h
  obtain ⟨vid, h1, h⟩ := bindOk h
  obtain ⟨vnode, h2, h⟩ := bindOk h
  obtain ⟨vnum, h3, h⟩ := bindOk h
  obtain ⟨vstate, h4, h⟩ := bindOk h
  obtain ⟨vtitle, h5, h⟩ := bindOk h
  obtain ⟨vbody, h6, h⟩ := bindOk h
  obtain ⟨aJ, h7, h⟩ := bindOk h
  obtain ⟨aV, h8, h⟩ := bindOk h
  obtain ⟨lJ, h9, h⟩ := bindOk h
  obtain ⟨lV, h10, h⟩ := bindOk h
  obtain ⟨vcom, h11, h⟩ := bindOk h
  obtain ⟨uJ, h12, h⟩ := bindOk h
  obtain ⟨vuser, h13, h⟩ := bindOk h
  obtain ⟨vca, h14, h⟩ := bindOk h
  obtain ⟨vua, h15, h⟩ := bindOk h
  obtain ⟨vcl, h16, h⟩ := bindOk h
  simp only [pure, Except.pure, Except.ok.injEq] at h
  exact ⟨vid, vnode, vnum, vstate, vtitle, vbody, aJ, aV, lJ, lV, vcom, uJ,
    vuser, vca, vua, vcl, h1, h2, h3, h4, h5, h6, h7, h8, h9, h10, h11, h12,
    h13, h14, h15, h16, h.symm⟩

lemma mapPull_inv {item : Json} {r : Row} (h : mapPull item = .ok r) :
    ∃ vid vnode vnum vstate vtitle vbody aJ aV rJ rV lJ lV uJ vuser vca vua vcl
      vmg vms hJ vhs bJ vbs,
      item.get "id" = .ok vid ∧ item.get "node_id" = .ok vnode ∧
      item.get "number" = .ok vnum ∧ item.get "state" = .ok vstate ∧
      item.get "title" = .ok vtitle ∧ item.get "body" = .ok vbody ∧
      item.get "assignees" = .ok aJ ∧ joinKey "login" aJ = .ok aV ∧
      item.get "requested_reviewers" = .ok rJ ∧ joinKey "login" rJ = .ok rV ∧
      item.get "labels" = .ok lJ ∧ joinKey "name" lJ = .ok lV ∧
      item.get "user" = .ok uJ ∧ uJ.get "login" = .ok vuser ∧
      item.get "created_at" = .ok vca ∧ item.get "updated_at" = .ok vua ∧
      item.get "closed_at" = .ok vcl ∧ item.get "merged_at" = .ok vmg ∧
      item.get "merge_commit_sha" = .ok vms ∧
      item.get "head" = .ok hJ ∧ hJ.get "sha" = .ok vhs ∧
      item.get "base" = .ok bJ ∧ bJ.get "sha" = .ok vbs ∧
      r = [("id", vid), ("node_id", vnode), ("number", vnum), ("state", vstate),
           ("title", vtitle), ("body", vbody), ("assignees", aV),
           ("reviewers", rV), ("labels", lV), ("created_by", vuser),
           ("date_created", vca), ("date_updated", vua), ("date_closed", vcl),
           ("date_merged", vmg), ("merge_sha", vms), ("head_sha", vhs),
           ("base_sha", vbs)] := by
  unfold mapPull at h
  obtain ⟨vid, h1, h⟩ := bindOk h
  obtain ⟨vnode, h2, h⟩ := bindOk h
  obtain ⟨vnum, h3, h⟩ := bindOk h
  obtain ⟨vstate, h4, h⟩ := bindOk h
  obtain ⟨vtitle, h5, h⟩ := bindOk h
  obtain ⟨vbody, h6, h⟩ := bindOk h
  obtain ⟨aJ, h7, h⟩ := bindOk h
  obtain ⟨aV, h8, h⟩ := bindOk h
  obtain ⟨rJ, h9, h⟩ := bindOk h
  obtain ⟨rV, h10, h⟩ := bindOk h
  obtain ⟨lJ, h11, h⟩ := bindOk h
  obtain ⟨lV, h12, h⟩ := bindOk h
  obtain ⟨uJ, h13, h⟩ := bindOk h
  obtain ⟨vuser, h14, h⟩ := bindOk h
  obtain ⟨vca, h15, h⟩ := bindOk h
  obtain ⟨vua, h16, h⟩ := bindOk h
  obtain ⟨vcl, h17, h⟩ := bindOk h
  obtain ⟨vmg, h18, h⟩ := bindOk h
  obtain ⟨vms, h19, h⟩ := bindOk h
  obtain ⟨hJ, h20, h⟩ := bindOk h
  obtain ⟨vhs, h21, h⟩ := bindOk h
  obtain ⟨bJ, h22, h⟩ := bindOk h
  obtain ⟨vbs, h23, h⟩ := bindOk h
  simp only [pure, Except.pure, Except.ok.injEq] at h
  exact ⟨vid, vnode, vnum, vstate, vtitle, vbody, aJ, aV, rJ, rV, lJ, lV, uJ,
    vuser, vca, vua, vcl, vmg, vms, hJ, vhs, bJ, vbs, h1, h2, h3, h4, h5, h6,
    h7, h8, h9, h10, h11, h12, h13, h14, h15, h16, h17, h18, h19, h20, h21,
    h22, h23, h.symm⟩

lemma mapCommit_inv {item : Json} {r : Row} (h : mapCommit item = .ok r) :
    ∃ vsha cJ1 tJ vts pJ vps vnode aObj vauthor cJ2 auJ vda cObj vcommitter cJ3
      coJ vdc cJ4 vmsg cJ5 vcom,
      item.get "sha" = .ok vsha ∧
      item.get "commit" = .ok cJ1 ∧ cJ1.get "tree" = .ok tJ ∧
      tJ.get "sha" = .ok vts ∧
      item.get "parents" = .ok pJ ∧ joinKey "sha" pJ = .ok vps ∧
      item.get "node_id" = .ok vnode ∧
      item.get "author" = .ok aObj ∧ loginOrNull aObj = .ok vauthor ∧
      item.get "commit" = .ok cJ2 ∧ cJ2.get "author" = .ok auJ ∧
      auJ.get "date" = .ok vda ∧
      item.get "committer" = .ok cObj ∧ loginOrNull cObj = .ok vcommitter ∧
      item.get "commit" = .ok cJ3 ∧ cJ3.get "committer" = .ok coJ ∧
      coJ.get "date" = .ok vdc ∧
      item.get "commit" = .ok cJ4 ∧ cJ4.get "message" = .ok vmsg ∧
      item.get "commit" = .ok cJ5 ∧ cJ5.get "comment_count" = .ok vcom ∧
      r = [("sha", vsha), ("tree_sha", vts), ("parents_sha", vps),
           ("node_id", vnode), ("author", vauthor), ("date_authored", vda),
           ("committer", vcommitter), ("date_committed", vdc),
           ("message", vmsg), ("comments", vcom)] := by
  unfold mapCommit at h
  obtain ⟨vsha, h1, h⟩ := bindOk h
  obtain ⟨cJ1, h2, h⟩ := bindOk h
  obtain ⟨tJ, h3, h⟩ := bindOk h
  obtain ⟨vts, h4, h⟩ := bindOk h
  obtain ⟨pJ, h5, h⟩ := bindOk h
  obtain ⟨vps, h6, h⟩ := bindOk h
  obtain ⟨vnode, h7, h⟩ := bindOk h
  obtain ⟨aObj, h8, h⟩ := bindOk h
  obtain ⟨vauthor, h9, h⟩ := bindOk h
  obtain ⟨cJ2, h10, h⟩ := bindOk h
  obtain ⟨auJ, h11, h⟩ := bindOk h
  obtain ⟨vda, h12, h⟩ := bindOk h
  obtain ⟨cObj, h13, h⟩ := bindOk h
  obtain ⟨vcommitter, h14, h⟩ := bindOk h
  obtain ⟨cJ3, h15, h⟩ := bindOk h
  obtain ⟨coJ, h16, h⟩ := bindOk h
  obtain ⟨vdc, h17, h⟩ := bindOk h
  obtain ⟨cJ4, h18, h⟩ := bindOk h
  obtain ⟨vmsg, h19, h⟩ := bindOk h
  obtain ⟨cJ5, h20, h⟩ := bindOk h
  obtain ⟨vcom, h21, h⟩ := bindOk h
  simp only [pure, Except.pure, Except.ok.injEq] at h
  exact ⟨vsha, cJ1, tJ, vts, pJ, vps, vnode, aObj, vauthor, cJ2, auJ, vda,
    cObj, vcommitter, cJ3, coJ, vdc, cJ4, vmsg, cJ5, vcom, h1, h2, h3, h4, h5,
    h6, h7, h8, h9, h10, h11, h12, h13, h14, h15, h16, h17, h18, h19, h20,
    h21, h.symm⟩

/-! ## Claims about the record mappings (C3, C8, C9) -/

/-- A raw pull-request record carrying every field `mapIssue` and `mapPull`
read, as the GitHub API serves it (pull records are also valid issue-shaped
records). -/
def samplePullRecord : Json := jobj [
  ("id", .num 10), ("node_id", .str "n10"), ("number", .num 7),
  ("state", .str "closed"), ("title", .str "t"), ("body", .str "b"),
  ("assignees", jarr []), ("labels", jarr []), ("comments", .num 3),
  ("user", jobj [("login", .str "u")]),
  ("created_at", .str "c"), ("updated_at", .str "up"), ("closed_at", .null),
  ("requested_reviewers", jarr [jobj [("login", .str "r1")],
                                jobj [("login", .str "r2")]]),
  ("merged_at", .null), ("merge_commit_sha", .str "m"),
  ("head", jobj [("sha", .str "h")]), ("base", jobj [("sha", .str "bs")])]

/-- The row `mapIssue` produces from `samplePullRecord`. -/
def sampleIssueRowValue : Row :=
  [("id", .num 10), ("node_id", .str "n10"), ("number", .num 7),
   ("state", .str "closed"), ("title", .str "t"), ("body", .str "b"),
   ("assignees", .str ""), ("labels", .str ""), ("comments", .num 3),
   ("created_by", .str "u"), ("date_created", .str "c"),
   ("date_updated", .str "up"), ("date_closed", .null)]

/-- The row `mapPull` produces from `samplePullRecord`. -/
def samplePullRowValue : Row :=
  [("id", .num 10), ("node_id", .str "n10"), ("number", .num 7),
   ("state", .str "closed"), ("title", .str "t"), ("body", .str "b"),
   ("assignees", .str ""), ("reviewers", .str "r1,r2"), ("labels", .str ""),
   ("created_by", .str "u"), ("date_created", .str "c"),
   ("date_updated", .str "up"), ("date_closed", .null), ("date_merged", .null),
   ("merge_sha", .str "m"), ("head_sha", .str "h"), ("base_sha", .str "bs")]

example : mapIssue samplePullRecord = .ok sampleIssueRowValue := rfl
example : mapPull samplePullRecord = .ok samplePullRowValue := rfl

/-- C3 (counterexample): the claim says the mapped PullRequest row contains
every field of the mapped Issue row *including the comment count*, but the
`pulls` `data_dict` has no `comments` entry: on a record both mappings accept,
the issue row carries `comments` and the pull row does not. -/
theorem pull_row_lacks_comment_count :
    mapIssue samplePullRecord = .ok sampleIssueRowValue ∧
    mapPull samplePullRecord = .ok samplePullRowValue ∧
    List.lookup "comments" sampleIssueRowValue = some (.num 3) ∧
    List.lookup "comments" samplePullRowValue = none :=
  ⟨rfl, rfl, rfl, rfl⟩

/-- C3 (amended): for every raw record accepted by both mappings, the mapped
PullRequest row contains every field of the mapped Issue row *except* the
comment count (which the pull row lacks entirely), plus the flattened
reviewer-login list, optional merged timestamp, optional merge-commit sha,
and head/base commit shas. -/
theorem pull_row_superset_except_comments (item : Json) (irow prow : Row)
    (hi : mapIssue item = .ok irow) (hp : mapPull item = .ok prow) :
    (∀ kv ∈ irow, kv.1 ≠ "comments" → kv ∈ prow) ∧
    List.lookup "comments" prow = none ∧
    (∃ v, List.lookup "reviewers" prow = some v ∧
      ∃ rJ, item.get "requested_reviewers" = .ok rJ ∧ joinKey "login" rJ = .ok v) ∧
    (∃ v, List.lookup "date_merged" prow = some v ∧ item.get "merged_at" = .ok v) ∧
    (∃ v, List.lookup "merge_sha" prow = some v ∧
      item.get "merge_commit_sha" = .ok v) ∧
    (∃ v, List.lookup "head_sha" prow = some v ∧
      ∃ hJ, item.get "head" = .ok hJ ∧ hJ.get "sha" = .ok v) ∧
    (∃ v, List.lookup "base_sha" prow = some v ∧
      ∃ bJ, item.get "base" = .ok bJ ∧ bJ.get "sha" = .ok v) := by
  obtain ⟨vid, vnode, vnum, vstate, vtitle, vbody, aJ, aV, lJ, lV, vcom, uJ,
    vuser, vca, vua, vcl, g1, g2, g3, g4, g5, g6, g7, g8, g9, g10, g11, g12,
    g13, g14, g15, g16, hir⟩ := mapIssue_inv hi
  obtain ⟨vid', vnode', vnum', vstate', vtitle', vbody', aJ', aV', rJ, rV, lJ',
    lV', uJ', vuser', vca', vua', vcl', vmg, vms, hJ, vhs, bJ, vbs, p1, p2, p3,
    p4, p5, p6, p7, p8, p9, p10, p11, p12, p13, p14, p15, p16, p17, p18, p19,
    p20, p21, p22, p23, hpr⟩ := mapPull_inv hp
  obtain rfl := Except.ok.inj (g1.symm.trans p1)
  obtain rfl := Except.ok.inj (g2.symm.trans p2)
  obtain rfl := Except.ok.inj (g3.symm.trans p3)
  obtain rfl := Except.ok.inj (g4.symm.trans p4)
  obtain rfl := Except.ok.inj (g5.symm.trans p5)
  obtain rfl := Except.ok.inj (g6.symm.trans p6)
  obtain rfl := Except.ok.inj (g7.symm.trans p7)
  obtain rfl := Except.ok.inj (g8.symm.trans p8)
  obtain rfl := Except.ok.inj (g9.symm.trans p11)
  obtain rfl := Except.ok.inj (g10.symm.trans p12)
  obtain rfl := Except.ok.inj (g12.symm.trans p13)
  obtain rfl := Except.ok.inj (g13.symm.trans p14)
  obtain rfl := Except.ok.inj (g14.symm.trans p15)
  obtain rfl := Except.ok.inj (g15.symm.trans p16)
  obtain rfl := Except.ok.inj (g16.symm.trans p17)
  subst hir
  subst hpr
  refine ⟨?_, ?_, ⟨rV, ?_, rJ, p9, p10⟩, ⟨vmg, ?_, p18⟩, ⟨vms, ?_, p19⟩,
    ⟨vhs, ?_, hJ, p20, p21⟩, ⟨vbs, ?_, bJ, p22, p23⟩⟩
  · intro kv hkv hne
    simp only [List.mem_cons, List.not_mem_nil, or_false] at hkv
    rcases hkv with rfl | rfl | rfl | rfl | rfl | rfl | rfl | rfl | rfl | rfl |
      rfl | rfl | rfl
    · simp
    · simp
    · simp
    · simp
    · simp
    · simp
    · simp
    · simp
    · simp at hne
    · simp
    · simp
    · simp
    · simp
  · simp [List.lookup]
  · simp [List.lookup]
  · simp [List.lookup]
  · simp [List.lookup]
  · simp [List.lookup]
  · simp [List.lookup]

/-- Witness for `pull_row_superset_except_comments` at `samplePullRecord`. -/
theorem pull_row_superset_witness :
    (("id", Json.num 10) ∈ samplePullRowValue) ∧
    List.lookup "comments" samplePullRowValue = none :=
  ⟨(pull_row_superset_except_comments samplePullRecord sampleIssueRowValue
      samplePullRowValue rfl rfl).1 ("id", .num 10) (by decide) (by decide),
   (pull_row_superset_except_comments samplePullRecord sampleIssueRowValue
      samplePullRowValue rfl rfl).2.1⟩

/-- A raw commit record with no `author` key at all (every other field the
mapping reads is present and well-formed). -/
def commitNoAuthor : Json := jobj [
  ("sha", .str "s"), ("node_id", .str "n"),
  ("commit", jobj [("tree", jobj [("sha", .str "t")]),
    ("author", jobj [("date", .str "d1")]),
    ("committer", jobj [("date", .str "d2")]),
    ("message", .str "m"), ("comment_count", .num 0)]),
  ("parents", jarr []),
  ("committer", .null)]

/-- A raw commit record whose `author` and `committer` fields are JSON null. -/
def commitNullAuthor : Json := jobj [
  ("sha", .str "s"), ("node_id", .str "n"),
  ("commit", jobj [("tree", jobj [("sha", .str "t")]),
    ("author", jobj [("date", .str "d1")]),
    ("committer", jobj [("date", .str "d2")]),
    ("message", .str "m"), ("comment_count", .num 0)]),
  ("parents", jarr []),
  ("author", .null), ("committer", .null)]

/-- The row `mapCommit` produces from `commitNullAuthor`. -/
def commitNullAuthorRow : Row :=
  [("sha", .str "s"), ("tree_sha", .str "t"), ("parents_sha", .str ""),
   ("node_id", .str "n"), ("author", .null), ("date_authored", .str "d1"),
   ("committer", .null), ("date_committed", .str "d2"), ("message", .str "m"),
   ("comments", .num 0)]

example : mapCommit commitNullAuthor = .ok commitNullAuthorRow := rfl

/-- C8 (counterexample): the claim also covers a raw commit record whose
`author` field is *absent*, but `item['author']` on such a record raises a
`KeyError`: the mapping fails and no row is inserted, instead of mapping the
column to null. -/
theorem commit_absent_author_raises :
    mapCommit commitNoAuthor = .error .keyError ∧
    transform_load [] (jarr [commitNoAuthor]) "commits"
      = ([("commits", [])], some .keyError) :=
  ⟨rfl, rfl⟩

/-- C8 (amended): for every raw commit record whose `author` (or `committer`)
field is JSON *null*, the mapped column is null, and the row is still inserted
successfully — `author`/`committer` carry no `NOT NULL` constraint, so a null
there never blocks the insert; a record *lacking* the key entirely instead
fails the mapping with a `KeyError` (see the counterexample). -/
theorem commit_null_author_maps_to_null (item : Json) (row : Row)
    (h : mapCommit item = .ok row) :
    (item.get "author" = .ok Json.null →
      List.lookup "author" row = some Json.null) ∧
    (item.get "committer" = .ok Json.null →
      List.lookup "committer" row = some Json.null) ∧
    ("author" ∉ tableNotNull "commits" ∧ "committer" ∉ tableNotNull "commits") ∧
    (∀ t : List Row, nullViolB (tableNotNull "commits") row = false →
      pkConflictB (tablePK "commits") t row = false →
      insertOrIgnore (tablePK "commits") (tableRowidAlias "commits")
        (tableNotNull "commits") t row = t ++ [row]) := by
  obtain ⟨vsha, cJ1, tJ, vts, pJ, vps, vnode, aObj, vauthor, cJ2, auJ, vda,
    cObj, vcommitter, cJ3, coJ, vdc, cJ4, vmsg, cJ5, vcom, h1, h2, h3, h4, h5,
    h6, h7, h8, h9, h10, h11, h12, h13, h14, h15, h16, h17, h18, h19, h20,
    h21, hrow⟩ := mapCommit_inv h
  subst hrow
  refine ⟨?_, ?_, by decide, ?_⟩
  · intro ha
    obtain rfl := Except.ok.inj (h8.symm.trans ha)
    have : vauthor = Json.null := by
      have h9' : loginOrNull Json.null = .ok vauthor := h9
      simp only [loginOrNull, Json.truthy, Bool.false_eq_true, if_false, pure,
        Except.pure, Except.ok.injEq] at h9'
      exact h9'.symm
    subst this
    simp [List.lookup]
  · intro hc
    obtain rfl := Except.ok.inj (h13.symm.trans hc)
    have : vcommitter = Json.null := by
      have h14' : loginOrNull Json.null = .ok vcommitter := h14
      simp only [loginOrNull, Json.truthy, Bool.false_eq_true, if_false, pure,
        Except.pure, Except.ok.injEq] at h14'
      exact h14'.symm
    subst this
    simp [List.lookup]
  · intro t hnv hc
    by_cases hpn : pkNullB (tablePK "commits")
        [("sha", vsha), ("tree_sha", vts), ("parents_sha", vps),
         ("node_id", vnode), ("author", vauthor), ("date_authored", vda),
         ("committer", vcommitter), ("date_committed", vdc),
         ("message", vmsg), ("comments", vcom)] = true
    · simp [insertOrIgnore, hnv, hpn, tableRowidAlias]
    · simp [insertOrIgnore, hnv, hc, hpn]

/-- Witness for `commit_null_author_maps_to_null`: the null-author record maps
to a null column and its row is appended to an empty `commits` table. -/
theorem commit_null_author_witness :
    List.lookup "author" commitNullAuthorRow = some Json.null ∧
    insertOrIgnore (tablePK "commits") (tableRowidAlias "commits")
        (tableNotNull "commits") [] commitNullAuthorRow
      = [] ++ [commitNullAuthorRow] :=
  ⟨(commit_null_author_maps_to_null commitNullAuthor commitNullAuthorRow
      rfl).1 rfl,
   (commit_null_author_maps_to_null commitNullAuthor commitNullAuthorRow
      rfl).2.2.2 [] (by decide) (by decide)⟩

lemma mapM_projection (k : String) :
    ∀ (xs : List Json) (names : List String),
      xs.map (fun o => o.get k) = names.map (fun s => Except.ok (Json.str s)) →
      (xs.mapM (fun x => do
          let v ← x.get k
          match v with
          | .str s => pure s
          | _ => Except.error PyErr.typeError) : Except PyErr (List String))
        = .ok names := by
  intro xs
  induction xs with
  | nil =>
    intro names hmap
    cases names with
    | nil => rfl
    | cons n ns => simp at hmap
  | cons x xs ih =>
    intro names hmap
    cases names with
    | nil => simp at hmap
    | cons n ns =>
      simp only [List.map_cons, List.cons.injEq] at hmap
      obtain ⟨hx, hrest⟩ := hmap
      rw [List.mapM_cons]
      conv_lhs => rw [ih ns hrest]
      simp only [hx, Bind.bind, Except.bind]
      rfl

/-- C9: list-valued raw fields are flattened by projecting each element to its
`login`/`name`/`sha` sub-field and joining with a comma: an empty list
produces the empty string (never null), and a non-empty list the
comma-separated sub-field values; and each mapping stores exactly that joined
string in the corresponding column (`assignees`, `labels`, `reviewers`,
`parents_sha`). -/
theorem list_fields_flatten_to_comma_strings :
    (∀ k : String, joinKey k (jarr []) = .ok (.str "")) ∧
    (∀ (k : String) (xs : List Json) (names : List String),
      xs.map (fun o => o.get k) = names.map (fun s => Except.ok (Json.str s)) →
      joinKey k (jarr xs) = .ok (.str (String.intercalate "," names))) ∧
    (∀ item row, mapIssue item = .ok row →
      (∀ aJ, item.get "assignees" = .ok aJ →
        ∃ v, joinKey "login" aJ = .ok v ∧ List.lookup "assignees" row = some v) ∧
      (∀ lJ, item.get "labels" = .ok lJ →
        ∃ v, joinKey "name" lJ = .ok v ∧ List.lookup "labels" row = some v)) ∧
    (∀ item row, mapPull item = .ok row →
      (∀ aJ, item.get "assignees" = .ok aJ →
        ∃ v, joinKey "login" aJ = .ok v ∧ List.lookup "assignees" row = some v) ∧
      (∀ rJ, item.get "requested_reviewers" = .ok rJ →
        ∃ v, joinKey "login" rJ = .ok v ∧ List.lookup "reviewers" row = some v) ∧
      (∀ lJ, item.get "labels" = .ok lJ →
        ∃ v, joinKey "name" lJ = .ok v ∧ List.lookup "labels" row = some v)) ∧
    (∀ item row, mapCommit item = .ok row →
      ∀ pJ, item.get "parents" = .ok pJ →
        ∃ v, joinKey "sha" pJ = .ok v ∧ List.lookup "parents_sha" row = some v) := by
  refine ⟨fun k => rfl, ?_, ?_, ?_, ?_⟩
  · intro k xs names hmap
    simp only [joinKey, jarr, JList.toList_ofList]
    rw [mapM_projection k xs names hmap]
    rfl
  · intro item row h
    obtain ⟨vid, vnode, vnum, vstate, vtitle, vbody, aJ, aV, lJ, lV, vcom, uJ,
      vuser, vca, vua, vcl, g1, g2, g3, g4, g5, g6, g7, g8, g9, g10, g11, g12,
      g13, g14, g15, g16, hir⟩ := mapIssue_inv h
    subst hir
    constructor
    · intro aJ' ha
      obtain rfl := Except.ok.inj (g7.symm.trans ha)
      exact ⟨aV, g8, by simp [List.lookup]⟩
    · intro lJ' hl
      obtain rfl := Except.ok.inj (g9.symm.trans hl)
      exact ⟨lV, g10, by simp [List.lookup]⟩
  · intro item row h
    obtain ⟨vid, vnode, vnum, vstate, vtitle, vbody, aJ, aV, rJ, rV, lJ, lV,
      uJ, vuser, vca, vua, vcl, vmg, vms, hJ, vhs, bJ, vbs, p1, p2, p3, p4, p5,
      p6, p7, p8, p9, p10, p11, p12, p13, p14, p15, p16, p17, p18, p19, p20,
      p21, p22, p23, hpr⟩ := mapPull_inv h
    subst hpr
    refine ⟨?_, ?_, ?_⟩
    · intro aJ' ha
      obtain rfl := Except.ok.inj (p7.symm.trans ha)
      exact ⟨aV, p8, by simp [List.lookup]⟩
    · intro rJ' hr
      obtain rfl := Except.ok.inj (p9.symm.trans hr)
      exact ⟨rV, p10, by simp [List.lookup]⟩
    · intro lJ' hl
      obtain rfl := Except.ok.inj (p11.symm.trans hl)
      exact ⟨lV, p12, by simp [List.lookup]⟩
  · intro item row h pJ' hp
    obtain ⟨vsha, cJ1, tJ, vts, pJ, vps, vnode, aObj, vauthor, cJ2, auJ, vda,
      cObj, vcommitter, cJ3, coJ, vdc, cJ4, vmsg, cJ5, vcom, h1, h2, h3, h4,
      h5, h6, h7, h8, h9, h10, h11, h12, h13, h14, h15, h16, h17, h18, h19,
      h20, h21, hrow⟩ := mapCommit_inv h
    subst hrow
    obtain rfl := Except.ok.inj (h5.symm.trans hp)
    exact ⟨vps, h6, by simp [List.lookup]⟩

/-- Witness for `list_fields_flatten_to_comma_strings`: the sample issue row's
`assignees` column is the empty string (empty assignee list), and the sample
pull row's `reviewers` column is the comma-join of the two reviewer logins. -/
theorem list_fields_flatten_witness :
    joinKey "login" (jarr []) = .ok (.str "") ∧
    List.lookup "assignees" sampleIssueRowValue = some (.str "") ∧
    List.lookup "reviewers" samplePullRowValue = some (.str "r1,r2") := by
  refine ⟨list_fields_flatten_to_comma_strings.1 "login", ?_, ?_⟩
  · obtain ⟨v, hv, hl⟩ :=
      (list_fields_flatten_to_comma_strings.2.2.1 samplePullRecord
        sampleIssueRowValue rfl).1 (jarr []) rfl
    have hv' : v = .str "" :=
      Except.ok.inj ((list_fields_flatten_to_comma_strings.1 "login").symm.trans
        hv).symm
    rw [hv'] at hl
    exact hl
  · obtain ⟨v, hv, hl⟩ :=
      (list_fields_flatten_to_comma_strings.2.2.2.1 samplePullRecord
        samplePullRowValue rfl).2.1
        (jarr [jobj [("login", .str "r1")], jobj [("login", .str "r2")]]) rfl
    have hv' : v = .str "r1,r2" :=
      Except.ok.inj
        ((list_fields_flatten_to_comma_strings.2.1 "login"
            [jobj [("login", .str "r1")], jobj [("login", .str "r2")]]
            ["r1", "r2"] rfl).symm.trans hv).symm
    rw [hv'] at hl
    exact hl
